import Mathlib

/-!
Shallow embedding of the test-orchestration framework of the
isolation-sphere firmware repository:
  - `components/test_framework/src/base_test.cpp` (`BaseTest::run`,
    `BaseTest::runSteps`, `BaseTest::executeStep`, `updateStatus`,
    `startTimer`, `stopTimer`),
  - `components/test_framework/src/test_manager.cpp` (`TestManager::runAllTests`,
    `runTest`, `runTestsMatching`, `executeTest`, `updateOverallResult`,
    `getOverallResult`, `getStatistics`, `matchesPattern`).

Modelling conventions:
  - `esp_err_t` is embedded as `Int` (`ESP_OK = 0`, `ESP_FAIL = -1`,
    `ESP_ERR_INVALID_ARG = 0x102`); `uint32_t` values are `Nat` reduced
    modulo `2 ^ 32` where the C code can wrap.
  - The FreeRTOS tick clock (`xTaskGetTickCount() * portTICK_PERIOD_MS`) is
    nondeterministic input; functions that read it take the reading as an
    explicit `Nat` parameter.  No claim below depends on timing values, so
    functions that read the clock several times are given a single reading.
  - The three virtual hooks `setup` / `execute` / `teardown` of a concrete
    test are abstracted by the `esp_err_t` values they return (`TestHooks`);
    a `std::function` that may be unbound is an `Option`.
  - Functions that mutate object state are state-passing; functions whose
    side effect of interest is which callees they invoke additionally
    return an invocation trace.  Logging (`ESP_LOGx`, `logInfo`, ...) has no
    state effect and is dropped.
-/

set_option linter.unusedVariables false

/-- `enum class TestResult` from `base_test.hpp`. -/
inductive TestResult
  | NOT_RUN
  | RUNNING
  | PASSED
  | FAILED
  | SKIPPED
  | TIMEOUT
deriving DecidableEq

open TestResult

/-- `esp_err_t`. -/
abbrev EspErr := Int

def ESP_OK : EspErr := 0

def ESP_FAIL : EspErr := -1

def ESP_ERR_INVALID_ARG : EspErr := 0x102

/-- Modulus of `uint32_t` arithmetic. -/
def u32 : Nat := 4294967296

/-- Storing an `esp_err_t` into the `uint32_t` field `error_code`. -/
def espErrToU32 (e : EspErr) : Nat := (e % (u32 : Int)).toNat

/-- `struct TestStatus` from `base_test.hpp`, with its member initializers. -/
structure TestStatus where
  result : TestResult := NOT_RUN
  message : String := ""
  duration_ms : Nat := 0
  start_time : Nat := 0
  error_code : Nat := 0

/-- `struct TestStep` from `base_test.hpp`.  The `std::function` member
`execute` is abstracted by the `esp_err_t` it would return when invoked;
`none` models a default-constructed (unbound) `std::function`. -/
structure TestStep where
  name : String
  execute : Option EspErr := none
  timeout_ms : Nat := 5000
  critical : Bool := true

/-- The three virtual lifecycle hooks of a concrete test, abstracted by the
`esp_err_t` values they return. -/
structure TestHooks where
  setup : EspErr
  execute : EspErr
  teardown : EspErr

/-- Which lifecycle hook `BaseTest::run` invokes (for invocation traces). -/
inductive Phase
  | setup
  | execute
  | teardown
deriving DecidableEq

/-- `BaseTest::updateStatus` (base_test.cpp:115-128). -/
def updateStatus (s : TestStatus) (r : TestResult) (msg : String) : TestStatus :=
  let s1 : TestStatus := { s with result := r, message := msg }
  if r ≠ RUNNING ∧ r ≠ NOT_RUN then
    if r = FAILED then { s1 with error_code := espErrToU32 ESP_FAIL }
    else { s1 with error_code := espErrToU32 ESP_OK }
  else s1

/-- `BaseTest::startTimer` (base_test.cpp:130-133); `t` is the current tick
reading in ms. -/
def startTimer (s : TestStatus) (t : Nat) : TestStatus :=
  { s with start_time := t % u32 }

/-- `BaseTest::stopTimer` (base_test.cpp:135-139): `uint32_t` subtraction
`current_time - start_time`. -/
def stopTimer (s : TestStatus) (t : Nat) : TestStatus :=
  { s with duration_ms := (t % u32 + u32 - s.start_time % u32) % u32 }

/-- Result of one `BaseTest::run` invocation: the returned `TestResult`, the
final `status_` field, and the ordered list of hook invocations. -/
structure RunOutput where
  ret : TestResult
  status : TestStatus
  trace : List Phase

/-- `BaseTest::run` (base_test.cpp:17-69) on hook outcomes `h` and current
status `s`; `t0` is the clock at `startTimer`, `t1` at `stopTimer`.  (The C
code reads the clock again for each `stopTimer`; no claim depends on the
value, so one stop reading is passed.)  On setup failure only `setup` is
invoked; on execute failure `teardown` is still invoked after the status is
finalized; otherwise all three hooks run. -/
def BaseTest.run (h : TestHooks) (s : TestStatus) (t0 t1 : Nat) : RunOutput :=
  let s1 := updateStatus s RUNNING ("Test execution started")
  let s2 := startTimer s1 t0
  if h.setup ≠ ESP_OK then
    { ret := FAILED
      status := updateStatus (stopTimer s2 t1) FAILED ("Setup phase failed")
      trace := [Phase.setup] }
  else if h.execute ≠ ESP_OK then
    { ret := FAILED
      status := updateStatus (stopTimer s2 t1) FAILED ("Execute phase failed")
      trace := [Phase.setup, Phase.execute, Phase.teardown] }
  else if h.teardown ≠ ESP_OK then
    { ret := FAILED
      status := updateStatus (stopTimer s2 t1) FAILED ("Teardown phase failed")
      trace := [Phase.setup, Phase.execute, Phase.teardown] }
  else
    { ret := PASSED
      status := updateStatus (stopTimer s2 t1) PASSED ("Test completed successfully")
      trace := [Phase.setup, Phase.execute, Phase.teardown] }

/-- `BaseTest::executeStep` (base_test.cpp:103-113).  Returns the step's
outcome and whether the action was invoked. -/
def executeStep (step : TestStep) : EspErr × Bool :=
  match step.execute with
  | none => (ESP_ERR_INVALID_ARG, false)
  | some r => (r, true)

/-- `BaseTest::runSteps` (base_test.cpp:83-101).  Returns the sequence
outcome and the names of the steps that were attempted, in order. -/
def runSteps : List TestStep → EspErr × List String
  | [] => (ESP_OK, [])
  | step :: rest =>
    let r := (executeStep step).1
    if r ≠ ESP_OK then
      if step.critical then (r, [step.name])
      else
        let t := runSteps rest
        (t.1, step.name :: t.2)
    else
      let t := runSteps rest
      (t.1, step.name :: t.2)

/-- One registered test as the manager sees it: its name, description, the
outcomes of its three hooks, and its current `status_`. -/
structure TestCase where
  name : String
  description : String := ""
  hooks : TestHooks
  status : TestStatus := {}

/-- `class TestManager` state (test_manager.hpp), with the `tests_`
registry.  Null `shared_ptr`s never enter `tests_` (`addTest` guards), so
list elements are plain `TestCase`s. -/
structure TestManager where
  tests : List TestCase
  stop_on_first_failure : Bool
  parallel_execution : Bool
  test_timeout_ms : Nat
  overall_result : TestResult
  execution_start_time : Nat
  execution_end_time : Nat

/-- `TestManager::TestManager` (test_manager.cpp:8-17). -/
def TestManager.init : TestManager :=
  { tests := []
    stop_on_first_failure := false
    parallel_execution := false
    test_timeout_ms := 300000
    overall_result := NOT_RUN
    execution_start_time := 0
    execution_end_time := 0 }

/-- `TestManager::addTest` (test_manager.cpp:19-33) for a non-null test. -/
def addTest (m : TestManager) (t : TestCase) : TestManager :=
  { m with tests := m.tests ++ [t] }

/-- `TestManager::updateOverallResult` (test_manager.cpp:328-335). -/
def updateOverallResult (cur : TestResult) (test_result : TestResult) : TestResult :=
  if test_result = FAILED then FAILED
  else if test_result = TIMEOUT ∧ cur ≠ FAILED then TIMEOUT
  else cur

/-- `TestManager::executeTest` (test_manager.cpp:301-320): runs the test and
reports whether it returned `PASSED`; `clk` is the tick reading used for the
timers inside `run`. -/
def executeTest (clk : Nat) (tc : TestCase) : Bool × TestCase :=
  let o := BaseTest.run tc.hooks tc.status clk clk
  (if o.ret = PASSED then true else false, { tc with status := o.status })

/-- The updated test after `executeTest`. -/
def execUpd (clk : Nat) (tc : TestCase) : TestCase := (executeTest clk tc).2

/-- Whether `executeTest` reports the test as passed. -/
def passesRun (clk : Nat) (tc : TestCase) : Bool := (executeTest clk tc).1

/-- Outcome of a manager execution loop: updated registry, the
`overall_result_` accumulator, the `all_passed` flag, and the names of the
tests whose `run()` was invoked, in order. -/
structure LoopOut where
  tests : List TestCase
  overall : TestResult
  all_passed : Bool
  executed : List String

/-- The loop of `TestManager::runAllTests` (test_manager.cpp:53-65):
execute each test; on a non-passing test fold its status result into
`overall_result_` and, when `stop_on_first_failure_` is set, break (leaving
the remaining tests untouched). -/
def runAllLoop (stop1 : Bool) (clk : Nat) : List TestCase → TestResult → LoopOut
  | [], ov => { tests := [], overall := ov, all_passed := true, executed := [] }
  | t :: rest, ov =>
    let p := executeTest clk t
    if p.1 then
      let r := runAllLoop stop1 clk rest ov
      { tests := p.2 :: r.tests, overall := r.overall,
        all_passed := r.all_passed, executed := t.name :: r.executed }
    else
      let ov2 := updateOverallResult ov p.2.status.result
      if stop1 then
        { tests := p.2 :: rest, overall := ov2, all_passed := false,
          executed := [t.name] }
      else
        let r := runAllLoop stop1 clk rest ov2
        { tests := p.2 :: r.tests, overall := r.overall,
          all_passed := false, executed := t.name :: r.executed }

/-- Result of one manager run-mode invocation. -/
structure BatchResult where
  ok : Bool
  manager : TestManager
  executed : List String

/-- `TestManager::runAllTests` (test_manager.cpp:35-77).  On an empty
registry it sets `overall_result_ = SKIPPED` and returns true without
touching the execution timestamps; otherwise `overall_result_` starts at
`PASSED` and the loop runs. -/
def runAllTests (m : TestManager) (clk : Nat) : BatchResult :=
  if m.tests.isEmpty then
    { ok := true, manager := { m with overall_result := SKIPPED }, executed := [] }
  else
    let r := runAllLoop m.stop_on_first_failure clk m.tests PASSED
    let m2 := { m with tests := r.tests, overall_result := r.overall, execution_start_time := clk % u32, execution_end_time := clk % u32 }
    { ok := r.all_passed, manager := m2, executed := r.executed }

/-- `::tolower` on the ASCII range, as applied by `std::transform` in
`TestManager::matchesPattern`. -/
def cToLower (c : Char) : Char :=
  if 'A' ≤ c ∧ c ≤ 'Z' then Char.ofNat (c.toNat + 32) else c

/-- `p` is a prefix of `t` (the match at one position inside
`std::string::find`). -/
def leadsWith : List Char → List Char → Bool
  | [], _ => true
  | _ :: _, [] => false
  | a :: p, b :: t => if a = b then leadsWith p t else false

/-- `text.find(pat) != npos`: `pat` occurs contiguously in `text`
(the empty pattern occurs in every text, as with `std::string::find`). -/
def findSub : List Char → List Char → Bool
  | pat, [] => pat.isEmpty
  | pat, c :: rest => leadsWith pat (c :: rest) || findSub pat rest

/-- `TestManager::matchesPattern` (test_manager.cpp:366-381): `"*"` matches
everything, otherwise case-insensitive substring containment. -/
def matchesPattern (text pattern : String) : Bool :=
  if pattern = ("*" : String) then true
  else findSub (pattern.toList.map cToLower) (text.toList.map cToLower)

/-- Result of `TestManager::runTestsMatching`, also recording which tests
were selected (the `matching_tests` vector). -/
structure MatchRunResult where
  ok : Bool
  manager : TestManager
  executed : List String
  selected : List String

/-- The loop of `TestManager::runTestsMatching` (test_manager.cpp:124-136).
The C code first copies the matching `shared_ptr`s into `matching_tests`
and then iterates that vector; since the copies alias the registry entries
and preserve registry order, this is modelled by walking the registry and
executing exactly the matching entries in place. -/
def runMatchLoop (stop1 : Bool) (clk : Nat) (pat : String) :
    List TestCase → TestResult → LoopOut
  | [], ov => { tests := [], overall := ov, all_passed := true, executed := [] }
  | t :: rest, ov =>
    if matchesPattern t.name pat then
      let p := executeTest clk t
      if p.1 then
        let r := runMatchLoop stop1 clk pat rest ov
        { tests := p.2 :: r.tests, overall := r.overall,
          all_passed := r.all_passed, executed := t.name :: r.executed }
      else
        let ov2 := updateOverallResult ov p.2.status.result
        if stop1 then
          { tests := p.2 :: rest, overall := ov2, all_passed := false,
            executed := [t.name] }
        else
          let r := runMatchLoop stop1 clk pat rest ov2
          { tests := p.2 :: r.tests, overall := r.overall,
            all_passed := false, executed := t.name :: r.executed }
    else
      let r := runMatchLoop stop1 clk pat rest ov
      { tests := t :: r.tests, overall := r.overall,
        all_passed := r.all_passed, executed := r.executed }

/-- `TestManager::runTestsMatching` (test_manager.cpp:100-141).  If nothing
matches, return true with no state change; otherwise set
`overall_result_ = PASSED` and execute the matching tests. -/
def runTestsMatching (m : TestManager) (pat : String) (clk : Nat) : MatchRunResult :=
  let sel := (m.tests.filter fun t => matchesPattern t.name pat).map fun t => t.name
  if sel.isEmpty then
    { ok := true, manager := m, executed := [], selected := sel }
  else
    let r := runMatchLoop m.stop_on_first_failure clk pat m.tests PASSED
    let m2 := { m with tests := r.tests, overall_result := r.overall, execution_start_time := clk % u32, execution_end_time := clk % u32 }
    { ok := r.all_passed, manager := m2, executed := r.executed, selected := sel }

/-- The `std::find_if` + `executeTest` body of `TestManager::runTest`:
returns (found, updated registry, pass flag), executing only the first test
whose name equals `tname`. -/
def runTestLoop (clk : Nat) (tname : String) : List TestCase → Bool × List TestCase × Bool
  | [] => (false, [], false)
  | t :: rest =>
    if t.name = tname then
      let p := executeTest clk t
      (true, p.2 :: rest, p.1)
    else
      let r := runTestLoop clk tname rest
      (r.1, t :: r.2.1, r.2.2)

/-- `TestManager::runTest` (test_manager.cpp:79-98): exact-name lookup; a
missing name returns false with no state change. -/
def runTest (m : TestManager) (tname : String) (clk : Nat) : BatchResult :=
  let r := runTestLoop clk tname m.tests
  if r.1 then
    let m2 := { m with tests := r.2.1, execution_start_time := clk % u32, execution_end_time := clk % u32 }
    { ok := r.2.2, manager := m2, executed := [tname] }
  else
    { ok := false, manager := m, executed := [] }

/-- `TestManager::getOverallResult` (test_manager.cpp:203-245).  The switch
sets `has_failures` iff some status is `FAILED`, `has_timeouts` iff some
status is `TIMEOUT`, and clears `all_passed` on every non-`PASSED` status. -/
def getOverallResult (m : TestManager) : TestResult :=
  if m.tests.isEmpty then NOT_RUN
  else
    let results := m.tests.map fun t => t.status.result
    let has_failures := results.any fun r => decide (r = FAILED)
    let has_timeouts := results.any fun r => decide (r = TIMEOUT)
    let all_passed := results.all fun r => decide (r = PASSED)
    if has_failures then FAILED
    else if has_timeouts then TIMEOUT
    else if all_passed then PASSED
    else SKIPPED

/-- `struct TestStatistics` (test_manager.hpp:39-47), with its member
initializers.  The C `float success_rate` is modelled as an exact rational;
no claim depends on binary floating-point rounding. -/
structure TestStatistics where
  total_tests : Nat := 0
  passed_tests : Nat := 0
  failed_tests : Nat := 0
  skipped_tests : Nat := 0
  timeout_tests : Nat := 0
  total_duration_ms : Nat := 0
  success_rate : ℚ := 0

/-- One iteration of the `getStatistics` accumulation loop
(test_manager.cpp:271-292): add the duration and bump the bucket of the
test's status, in `uint32_t` arithmetic. -/
def statsStep (s : TestStatistics) (t : TestCase) : TestStatistics :=
  let s1 := { s with total_duration_ms := (s.total_duration_ms + t.status.duration_ms) % u32 }
  match t.status.result with
  | PASSED => { s1 with passed_tests := (s1.passed_tests + 1) % u32 }
  | FAILED => { s1 with failed_tests := (s1.failed_tests + 1) % u32 }
  | SKIPPED => { s1 with skipped_tests := (s1.skipped_tests + 1) % u32 }
  | TIMEOUT => { s1 with timeout_tests := (s1.timeout_tests + 1) % u32 }
  | NOT_RUN => s1
  | RUNNING => s1

/-- `TestManager::getStatistics` (test_manager.cpp:266-299).
`total_tests = tests_.size()` truncated to `uint32_t`; the buckets and the
duration are accumulated by `statsStep`; `success_rate` is set only when
`total_tests > 0` and otherwise keeps its 0 initializer. -/
def getStatistics (m : TestManager) : TestStatistics :=
  let s0 : TestStatistics := { total_tests := m.tests.length % u32 }
  let s := m.tests.foldl statsStep s0
  if 0 < s.total_tests then
    { s with success_rate := ((s.passed_tests : ℚ) / (s.total_tests : ℚ)) * 100 }
  else s

/-- Number of registered tests whose current status result is `r` (used to
state what the `getStatistics` buckets count). -/
def countResult (r : TestResult) (l : List TestCase) : Nat :=
  l.countP fun t => decide (t.status.result = r)

/-- Mathematical (non-wrapping) sum of the registered tests' `duration_ms`. -/
def sumDur (l : List TestCase) : Nat :=
  (l.map fun t => t.status.duration_ms).sum

/-! Concrete hooks, tests and managers used by witnesses and
counterexamples. -/

def hooksOK : TestHooks := { setup := ESP_OK, execute := ESP_OK, teardown := ESP_OK }

def hooksExecFail : TestHooks := { setup := ESP_OK, execute := ESP_FAIL, teardown := ESP_OK }

def hooksSetupFail : TestHooks := { setup := ESP_FAIL, execute := ESP_OK, teardown := ESP_OK }

def tcPass1 : TestCase := { name := "alpha", hooks := hooksOK }

def tcFail1 : TestCase := { name := "beta", hooks := hooksExecFail }

def tcPass2 : TestCase := { name := "gamma", hooks := hooksOK }

/-- A `[pass, fail, pass]` registry with `stop_on_first_failure` set. -/
def mgrStopDemo : TestManager :=
  { TestManager.init with tests := [tcPass1, tcFail1, tcPass2], stop_on_first_failure := true }

/-- The three-test registry of spec §8 property 7. -/
def mgrNamesDemo : TestManager :=
  { TestManager.init with tests :=
      [{ name := "BNO055", hooks := hooksOK },
       { name := "PSRAM", hooks := hooksOK },
       { name := "WiFi", hooks := hooksOK }] }

/-- Two tests whose `duration_ms` values sum to `2 ^ 32`. -/
def mgrOverflowDemo : TestManager :=
  { TestManager.init with tests :=
      [{ name := "d1", hooks := hooksOK, status := { duration_ms := 2147483648 } },
       { name := "d2", hooks := hooksOK, status := { duration_ms := 2147483648 } }] }

/-- A registry with statuses `[PASSED, PASSED, FAILED]` for the statistics
witness. -/
def mgrStatsDemo : TestManager :=
  { TestManager.init with tests :=
      [{ name := "s1", hooks := hooksOK, status := { result := PASSED, duration_ms := 10 } },
       { name := "s2", hooks := hooksOK, status := { result := PASSED, duration_ms := 20 } },
       { name := "s3", hooks := hooksExecFail, status := { result := FAILED, duration_ms := 5 } }] }

def stepNonCritFail : TestStep := { name := "A", execute := some ESP_FAIL, critical := false }

def stepCritFail : TestStep := { name := "B", execute := some ESP_FAIL }

def stepAfter : TestStep := { name := "C", execute := some ESP_OK }

def stepUnbound : TestStep := { name := "U" }

/-! Helper lemmas about the embedded operations. -/

theorem updateStatus_result (s : TestStatus) (r : TestResult) (msg : String) :
    (updateStatus s r msg).result = r := by
  unfold updateStatus
  split
  · split <;> rfl
  · rfl

theorem updateStatus_message (s : TestStatus) (r : TestResult) (msg : String) :
    (updateStatus s r msg).message = msg := by
  unfold updateStatus
  split
  · split <;> rfl
  · rfl

/-- In `BaseTest::run`, the finalized `status_.result` always matches the
returned `TestResult`. -/
theorem run_status_eq_ret (h : TestHooks) (s : TestStatus) (t0 t1 : Nat) :
    (BaseTest.run h s t0 t1).status.result = (BaseTest.run h s t0 t1).ret := by
  unfold BaseTest.run
  split
  · simp [updateStatus_result]
  · split
    · simp [updateStatus_result]
    · split <;> simp [updateStatus_result]

/-- `BaseTest::run` returns either `PASSED` or `FAILED`. -/
theorem run_ret_cases (h : TestHooks) (s : TestStatus) (t0 t1 : Nat) :
    (BaseTest.run h s t0 t1).ret = PASSED ∨ (BaseTest.run h s t0 t1).ret = FAILED := by
  unfold BaseTest.run
  split
  · simp
  · split
    · simp
    · split <;> simp

/-- After `executeTest`, the stored status result is `PASSED` when the test
was reported passed and `FAILED` otherwise. -/
theorem executeTest_status_result (clk : Nat) (tc : TestCase) :
    (executeTest clk tc).2.status.result
      = (if (executeTest clk tc).1 then PASSED else FAILED) := by
  unfold executeTest
  have h1 := run_status_eq_ret tc.hooks tc.status clk clk
  have h2 := run_ret_cases tc.hooks tc.status clk clk
  rcases h2 with h2 | h2 <;> simp [h1, h2]

/-! Claim theorems. -/

/-- Claim C1: for every invocation of `BaseTest::run`, if `setup()` returns
success then `teardown()` is invoked exactly once during that run,
regardless of whether `execute()` succeeds or fails. -/
theorem run_invokes_teardown_once (h : TestHooks) (s : TestStatus) (t0 t1 : Nat)
    (hs : h.setup = ESP_OK) :
    ((BaseTest.run h s t0 t1).trace.count Phase.teardown) = 1 := by
  unfold BaseTest.run
  rw [if_neg (by simp [hs])]
  split
  · rfl
  · split <;> rfl

/-- Witness for C1 at concrete hooks whose `execute` fails. -/
theorem run_invokes_teardown_once_witness :
    ((BaseTest.run hooksExecFail {} 3 10).trace.count Phase.teardown) = 1 :=
  run_invokes_teardown_once hooksExecFail {} 3 10 (by decide)

/-- Claim C2: if `setup()` returns failure, `BaseTest::run` invokes neither
`execute()` nor `teardown()` (the invocation trace is exactly `[setup]`),
sets the status to `FAILED` with message "Setup phase failed", and returns
`FAILED`. -/
theorem run_setup_failure_skips_rest (h : TestHooks) (s : TestStatus) (t0 t1 : Nat)
    (hs : h.setup ≠ ESP_OK) :
    (BaseTest.run h s t0 t1).trace = [Phase.setup]
    ∧ Phase.execute ∉ (BaseTest.run h s t0 t1).trace
    ∧ Phase.teardown ∉ (BaseTest.run h s t0 t1).trace
    ∧ (BaseTest.run h s t0 t1).ret = FAILED
    ∧ (BaseTest.run h s t0 t1).status.result = FAILED
    ∧ (BaseTest.run h s t0 t1).status.message = "Setup phase failed" := by
  unfold BaseTest.run
  rw [if_pos hs]
  refine ⟨rfl, by simp, by simp, rfl, ?_, ?_⟩
  · exact updateStatus_result _ _ _
  · exact updateStatus_message _ _ _

/-- Witness for C2 at concrete hooks whose `setup` fails. -/
theorem run_setup_failure_skips_rest_witness :
    (BaseTest.run hooksSetupFail {} 3 10).trace = [Phase.setup]
    ∧ (BaseTest.run hooksSetupFail {} 3 10).ret = FAILED
    ∧ (BaseTest.run hooksSetupFail {} 3 10).status.message = "Setup phase failed" := by
  have h := run_setup_failure_skips_rest hooksSetupFail {} 3 10 (by decide)
  exact ⟨h.1, h.2.2.2.1, h.2.2.2.2.2⟩

/-- Claim C3: `BaseTest::runSteps` attempts the steps in declaration order;
if no step both fails and is critical, every step is attempted and the
sequence returns `ESP_OK` (non-critical failures do not affect the outcome);
the first failing critical step aborts the sequence with its own failure
code, and the steps after it are never attempted. -/
theorem runSteps_critical_short_circuit :
    (∀ steps : List TestStep,
      (∀ st ∈ steps, ¬((executeStep st).1 ≠ ESP_OK ∧ st.critical = true)) →
      runSteps steps = (ESP_OK, steps.map fun st => st.name))
    ∧ (∀ (pre : List TestStep) (st : TestStep) (post : List TestStep),
      (∀ p ∈ pre, ¬((executeStep p).1 ≠ ESP_OK ∧ p.critical = true)) →
      (executeStep st).1 ≠ ESP_OK → st.critical = true →
      runSteps (pre ++ st :: post)
        = ((executeStep st).1, (pre.map fun p => p.name) ++ [st.name])) := by
  constructor
  · intro steps
    induction steps with
    | nil => intro _; rfl
    | cons st rest ih =>
      intro hall
      have hst := hall st (by simp)
      have hrest : ∀ s ∈ rest, ¬((executeStep s).1 ≠ ESP_OK ∧ s.critical = true) := by
        intro s hs
        exact hall s (List.mem_cons_of_mem _ hs)
      by_cases h1 : (executeStep st).1 = ESP_OK
      · simp [runSteps, h1, ih hrest]
      · have hcrit : st.critical = false := by
          rcases Bool.eq_false_or_eq_true st.critical with hc | hc
          · exact absurd ⟨h1, hc⟩ hst
          · exact hc
        simp [runSteps, h1, hcrit, ih hrest]
  · intro pre st post hpre hfail hcrit
    induction pre with
    | nil => simp [runSteps, hfail, hcrit]
    | cons p pre ih =>
      have hp := hpre p (by simp)
      have hpre' : ∀ s ∈ pre, ¬((executeStep s).1 ≠ ESP_OK ∧ s.critical = true) := by
        intro s hs
        exact hpre s (List.mem_cons_of_mem _ hs)
      by_cases h1 : (executeStep p).1 = ESP_OK
      · simp [runSteps, h1, ih hpre']
      · have hc : p.critical = false := by
          rcases Bool.eq_false_or_eq_true p.critical with hc | hc
          · exact absurd ⟨h1, hc⟩ hp
          · exact hc
        simp [runSteps, h1, hc, ih hpre']

/-- Witness for C3: a failing non-critical step, then a failing critical
step, then a never-attempted step. -/
theorem runSteps_critical_short_circuit_witness :
    runSteps [stepNonCritFail, stepCritFail, stepAfter] = (ESP_FAIL, ["A", "B"]) := by
  have h := runSteps_critical_short_circuit.2 [stepNonCritFail] stepCritFail [stepAfter]
    (by decide) (by decide) (by decide)
  simpa using h

/-- Claim C5: `runAllTests` on a manager with an empty registry returns
true, sets `overall_result_` to `SKIPPED`, and executes no test (the rest of
the manager state is untouched). -/
theorem runAllTests_empty_vacuous (m : TestManager) (clk : Nat) (h : m.tests = []) :
    runAllTests m clk
      = { ok := true, manager := { m with overall_result := SKIPPED }, executed := [] } := by
  unfold runAllTests
  rw [if_pos (by simp [h])]

/-- Witness for C5 on the freshly constructed manager. -/
theorem runAllTests_empty_vacuous_witness :
    runAllTests TestManager.init 7
      = { ok := true, manager := { TestManager.init with overall_result := SKIPPED },
          executed := [] } :=
  runAllTests_empty_vacuous TestManager.init 7 rfl

/-- Claim C9: `BaseTest::executeStep` fails with `ESP_ERR_INVALID_ARG`
without invoking anything when the step's action is unbound; otherwise it
propagates the action's return value verbatim (and invokes it); and its
outcome never depends on the step's `timeout_ms` (no timeout is enforced). -/
theorem executeStep_spec :
    (∀ st : TestStep, st.execute = none → executeStep st = (ESP_ERR_INVALID_ARG, false))
    ∧ (∀ (st : TestStep) (r : EspErr), st.execute = some r → executeStep st = (r, true))
    ∧ (∀ (st : TestStep) (tm : Nat), executeStep { st with timeout_ms := tm } = executeStep st) := by
  refine ⟨?_, ?_, ?_⟩
  · intro st h
    simp [executeStep, h]
  · intro st r h
    simp [executeStep, h]
  · intro st tm
    cases st with
    | mk n e t c => cases e <;> rfl

/-- Witness for C9: an unbound step and a bound step, at two timeouts. -/
theorem executeStep_spec_witness :
    executeStep stepUnbound = (ESP_ERR_INVALID_ARG, false)
    ∧ executeStep stepCritFail = (ESP_FAIL, true)
    ∧ executeStep { stepCritFail with timeout_ms := 99 } = executeStep stepCritFail := by
  refine ⟨executeStep_spec.1 stepUnbound (by decide), ?_, executeStep_spec.2.2 stepCritFail 99⟩
  have h := executeStep_spec.2.1 stepCritFail ESP_FAIL (by decide)
  exact h

/-- Claim C10: on a manager with zero registered tests, `getOverallResult`
returns `NOT_RUN` (which is neither `PASSED` nor `SKIPPED`), and this stays
true no matter which run modes are invoked: every run mode leaves the
registry empty and `getOverallResult` still returns `NOT_RUN`. -/
theorem getOverallResult_empty_not_run (m : TestManager) (h : m.tests = []) :
    getOverallResult m = NOT_RUN
    ∧ (∀ clk : Nat, (runAllTests m clk).manager.tests = []
        ∧ getOverallResult (runAllTests m clk).manager = NOT_RUN)
    ∧ (∀ (pat : String) (clk : Nat), (runTestsMatching m pat clk).manager.tests = []
        ∧ getOverallResult (runTestsMatching m pat clk).manager = NOT_RUN)
    ∧ (∀ (nm : String) (clk : Nat), (runTest m nm clk).manager.tests = []
        ∧ getOverallResult (runTest m nm clk).manager = NOT_RUN)
    ∧ NOT_RUN ≠ PASSED ∧ NOT_RUN ≠ SKIPPED := by
  refine ⟨?_, ?_, ?_, ?_, by decide, by decide⟩
  · unfold getOverallResult
    rw [if_pos (by simp [h])]
  · intro clk
    rw [runAllTests_empty_vacuous m clk h]
    constructor
    · exact h
    · unfold getOverallResult
      rw [if_pos (by simp [h])]
  · intro pat clk
    have hsel : ((m.tests.filter fun t => matchesPattern t.name pat).map fun t => t.name) = [] := by
      simp [h]
    unfold runTestsMatching
    rw [if_pos (by simp [h])]
    refine ⟨h, ?_⟩
    unfold getOverallResult
    rw [if_pos (by simp [h])]
  · intro nm clk
    have hloop : runTestLoop clk nm m.tests = (false, [], false) := by
      rw [h]; rfl
    unfold runTest
    rw [hloop]
    refine ⟨h, ?_⟩
    unfold getOverallResult
    rw [if_pos (by simp [h])]

/-- Witness for C10 on the freshly constructed manager. -/
theorem getOverallResult_empty_not_run_witness :
    getOverallResult TestManager.init = NOT_RUN
    ∧ getOverallResult (runAllTests TestManager.init 3).manager = NOT_RUN := by
  have h := getOverallResult_empty_not_run TestManager.init rfl
  exact ⟨h.1, (h.2.1 3).2⟩

/-- `leadsWith p t` succeeds exactly when `p` is a prefix of `t`. -/
theorem leadsWith_iff (p : List Char) : ∀ t, leadsWith p t = true ↔ ∃ q, t = p ++ q := by
  induction p with
  | nil =>
    intro t
    constructor
    · intro _; exact ⟨t, rfl⟩
    · intro _; rfl
  | cons a as ih =>
    intro t
    cases t with
    | nil =>
      simp [leadsWith]
    | cons b bs =>
      simp only [leadsWith]
      by_cases hab : a = b
      · subst hab
        rw [if_pos rfl, ih bs]
        constructor
        · rintro ⟨q, hq⟩
          exact ⟨q, by simp [hq]⟩
        · rintro ⟨q, hq⟩
          simp only [List.cons_append, List.cons.injEq] at hq
          exact ⟨q, hq.2⟩
      · rw [if_neg hab]
        constructor
        · intro h
          exact absurd h (by simp)
        · rintro ⟨q, hq⟩
          simp only [List.cons_append, List.cons.injEq] at hq
          exact absurd hq.1 (fun hba => hab hba.symm)

/-- `findSub p t` succeeds exactly when `p` occurs contiguously in `t`. -/
theorem findSub_iff (p : List Char) : ∀ t, findSub p t = true ↔ ∃ pre post, t = pre ++ p ++ post := by
  intro t
  induction t with
  | nil =>
    cases p with
    | nil =>
      constructor
      · intro _; exact ⟨[], [], rfl⟩
      · intro _; rfl
    | cons x xs =>
      constructor
      · intro h
        exact absurd h (by simp [findSub])
      · rintro ⟨pre, post, hpp⟩
        rcases List.append_eq_nil.mp hpp.symm with ⟨h1, _⟩
        rcases List.append_eq_nil.mp h1 with ⟨_, h3⟩
        exact absurd h3 (by simp)
  | cons c cs ih =>
    simp only [findSub, Bool.or_eq_true, leadsWith_iff, ih]
    constructor
    · rintro (⟨q, hq⟩ | ⟨pre, post, hpp⟩)
      · exact ⟨[], q, by simp [hq]⟩
      · exact ⟨c :: pre, post, by simp [hpp]⟩
    · rintro ⟨pre, post, hpp⟩
      cases pre with
      | nil =>
        left
        exact ⟨post, by simpa using hpp⟩
      | cons x xs =>
        right
        simp only [List.cons_append, List.cons.injEq] at hpp
        exact ⟨xs, post, hpp.2⟩

/-- In both branches of `runTestsMatching`, the `selected` component is the
name list of the pattern-filtered registry. -/
theorem runTestsMatching_selected_def (m : TestManager) (pat : String) (clk : Nat) :
    (runTestsMatching m pat clk).selected
      = (m.tests.filter fun t => matchesPattern t.name pat).map fun t => t.name := by
  unfold runTestsMatching
  by_cases he : ((m.tests.filter fun t => matchesPattern t.name pat).map fun t => t.name).isEmpty
  · rw [if_pos he]
  · rw [if_neg he]

/-- Claim C6: `runTestsMatching` selects exactly the registered tests whose
name contains the pattern as a case-insensitive substring (`matchesPattern`
holds iff the pattern is `"*"` or the case-folded pattern occurs
contiguously in the case-folded name); the pattern `"*"` selects every
registered test; and when nothing matches, nothing is executed, the manager
is unchanged, and true is returned. -/
theorem runTestsMatching_selection_spec :
    (∀ text pat : String, matchesPattern text pat = true ↔
      (pat = "*" ∨ ∃ pre post, text.toList.map cToLower = pre ++ pat.toList.map cToLower ++ post))
    ∧ (∀ (m : TestManager) (pat : String) (clk : Nat),
        (runTestsMatching m pat clk).selected
          = (m.tests.filter fun t => matchesPattern t.name pat).map fun t => t.name)
    ∧ (∀ (m : TestManager) (clk : Nat),
        (runTestsMatching m ("*") clk).selected = m.tests.map fun t => t.name)
    ∧ (∀ (m : TestManager) (pat : String) (clk : Nat),
        (runTestsMatching m pat clk).selected = [] →
          (runTestsMatching m pat clk).ok = true
          ∧ (runTestsMatching m pat clk).executed = []
          ∧ (runTestsMatching m pat clk).manager = m) := by
  refine ⟨?_, ?_, ?_, ?_⟩
  · intro text pat
    unfold matchesPattern
    by_cases hp : pat = ("*" : String)
    · simp [hp]
    · rw [if_neg hp]
      rw [findSub_iff]
      simp [hp]
  · intro m pat clk
    exact runTestsMatching_selected_def m pat clk
  · intro m clk
    rw [runTestsMatching_selected_def]
    have hall : ∀ t ∈ m.tests, matchesPattern t.name ("*") = true := by
      intro t _
      simp [matchesPattern]
    rw [List.filter_eq_self.mpr hall]
  · intro m pat clk hsel
    have hsel' : ((m.tests.filter fun t => matchesPattern t.name pat).map fun t => t.name) = [] := by
      rw [← runTestsMatching_selected_def m pat clk]
      exact hsel
    unfold runTestsMatching
    rw [if_pos (by simp [hsel'])]
    exact ⟨rfl, rfl, rfl⟩

/-- Witness for C6 on the `BNO055`/`PSRAM`/`WiFi` registry: the pattern
`"zzz"` selects nothing and vacuously succeeds, and `"no"` matches
`"BNO055"` case-insensitively. -/
theorem runTestsMatching_selection_spec_witness :
    ((runTestsMatching mgrNamesDemo ("zzz") 0).ok = true
      ∧ (runTestsMatching mgrNamesDemo ("zzz") 0).executed = []
      ∧ (runTestsMatching mgrNamesDemo ("zzz") 0).manager = mgrNamesDemo)
    ∧ matchesPattern ("BNO055") ("no") = true := by
  constructor
  · exact runTestsMatching_selection_spec.2.2.2 mgrNamesDemo ("zzz") 0 (by decide)
  · exact (runTestsMatching_selection_spec.1 ("BNO055") ("no")).mpr
      (Or.inr ⟨['b'], ['0', '5', '5'], by decide⟩)

/-- A prefix of passing tests is executed and updated in place, and the
`runAllTests` loop then continues on the remainder. -/
theorem runAllLoop_pass_pre (stop1 : Bool) (clk : Nat) (pre : List TestCase) :
    ∀ (rest : List TestCase) (ov : TestResult), (∀ p ∈ pre, passesRun clk p = true) →
      runAllLoop stop1 clk (pre ++ rest) ov =
        { tests := pre.map (execUpd clk) ++ (runAllLoop stop1 clk rest ov).tests
          overall := (runAllLoop stop1 clk rest ov).overall
          all_passed := (runAllLoop stop1 clk rest ov).all_passed
          executed := (pre.map fun t => t.name) ++ (runAllLoop stop1 clk rest ov).executed } := by
  induction pre with
  | nil =>
    intro rest ov _
    rfl
  | cons p pre ih =>
    intro rest ov hall
    have hp : (executeTest clk p).1 = true := hall p (by simp)
    have hpre : ∀ q ∈ pre, passesRun clk q = true := by
      intro q hq
      exact hall q (List.mem_cons_of_mem _ hq)
    rw [List.cons_append]
    show runAllLoop stop1 clk (p :: (pre ++ rest)) ov = _
    simp only [runAllLoop, hp, if_pos]
    rw [ih rest ov hpre]
    simp [execUpd]

/-- With `stop_on_first_failure` set, a failing head test stops the loop at
once: the tail is untouched. -/
theorem runAllLoop_stop_fail (clk : Nat) (t : TestCase) (post : List TestCase) (ov : TestResult)
    (hf : passesRun clk t = false) :
    runAllLoop true clk (t :: post) ov =
      { tests := execUpd clk t :: post
        overall := updateOverallResult ov (execUpd clk t).status.result
        all_passed := false
        executed := [t.name] } := by
  have hf' : (executeTest clk t).1 = false := hf
  simp only [runAllLoop, hf', Bool.false_eq_true, if_false, if_pos]
  rfl

/-- Claim C7: with `stop_on_first_failure` set, `runAllTests` executes the
registry in order only up to and including the first test whose `run()`
returns other than `PASSED`; every test registered after it is never
executed and keeps its previous status (so a fresh test's status remains
`NOT_RUN`). -/
theorem stop_on_first_failure_halts (m : TestManager) (clk : Nat)
    (pre : List TestCase) (t : TestCase) (post : List TestCase)
    (hstop : m.stop_on_first_failure = true)
    (htests : m.tests = pre ++ t :: post)
    (hpre : ∀ p ∈ pre, passesRun clk p = true)
    (hf : passesRun clk t = false) :
    (runAllTests m clk).executed = (pre.map fun p => p.name) ++ [t.name]
    ∧ (runAllTests m clk).manager.tests = pre.map (execUpd clk) ++ execUpd clk t :: post := by
  unfold runAllTests
  rw [if_neg (by simp [htests])]
  rw [htests, hstop]
  rw [runAllLoop_pass_pre true clk pre (t :: post) PASSED hpre]
  rw [runAllLoop_stop_fail clk t post PASSED hf]
  exact ⟨rfl, rfl⟩

/-- Witness for C7 on the `[pass, fail, pass]` registry: exactly the first
two tests execute and the third keeps status `NOT_RUN`. -/
theorem stop_on_first_failure_halts_witness :
    (runAllTests mgrStopDemo 0).executed = ["alpha", "beta"]
    ∧ ((runAllTests mgrStopDemo 0).manager.tests.map fun t => t.status.result)
        = [PASSED, FAILED, NOT_RUN] := by
  have h := stop_on_first_failure_halts mgrStopDemo 0 [tcPass1] tcFail1 [tcPass2]
    rfl rfl (by decide) (by decide)
  constructor
  · rw [h.1]
    decide
  · rw [h.2]
    decide

/-- Folding a `FAILED` status into `overall_result_` always yields
`FAILED`. -/
theorem updateOverallResult_failed (ov : TestResult) :
    updateOverallResult ov FAILED = FAILED := by
  rfl

/-- Invariant of the `runAllTests` loop: starting from any accumulator, the
final `overall_result_` is `FAILED` exactly when some test in the updated
registry carries status `FAILED` (and is the accumulator otherwise); when no
test failed, every test in the updated registry carries status `PASSED`;
and the registry length is preserved. -/
theorem runAllLoop_overall_spec (stop1 : Bool) (clk : Nat) :
    ∀ (ts : List TestCase) (ov : TestResult),
      ((runAllLoop stop1 clk ts ov).overall
        = (if (runAllLoop stop1 clk ts ov).tests.any (fun t => decide (t.status.result = FAILED)) then FAILED else ov))
      ∧ (((runAllLoop stop1 clk ts ov).tests.any (fun t => decide (t.status.result = FAILED))) = false →
          ∀ t ∈ (runAllLoop stop1 clk ts ov).tests, t.status.result = PASSED)
      ∧ (runAllLoop stop1 clk ts ov).tests.length = ts.length := by
  intro ts
  induction ts with
  | nil =>
    intro ov
    refine ⟨by simp [runAllLoop], by simp [runAllLoop], by simp [runAllLoop]⟩
  | cons t rest ih =>
    intro ov
    by_cases hp : (executeTest clk t).1 = true
    · have hst : (executeTest clk t).2.status.result = PASSED := by
        rw [executeTest_status_result, hp]
        rfl
      obtain ⟨ih1, ih2, ih3⟩ := ih ov
      refine ⟨?_, ?_, ?_⟩
      · simp only [runAllLoop, hp, if_pos]
        simp [hst, ih1]
      · simp only [runAllLoop, hp, if_pos]
        intro hnone t' ht'
        simp only [List.any_cons, Bool.or_eq_false_iff] at hnone
        rcases List.mem_cons.mp ht' with h | h
        · rw [h]
          exact hst
        · exact ih2 hnone.2 t' h
      · simp only [runAllLoop, hp, if_pos]
        simp [ih3]
    · have hpf : (executeTest clk t).1 = false := by
        exact Bool.eq_false_iff.mpr hp
      have hst : (executeTest clk t).2.status.result = FAILED := by
        rw [executeTest_status_result, hpf]
        rfl
      have hov2 : updateOverallResult ov (executeTest clk t).2.status.result = FAILED := by
        rw [hst]
        rfl
      by_cases hs : stop1 = true
      · subst hs
        refine ⟨?_, ?_, ?_⟩
        · simp only [runAllLoop, hpf, Bool.false_eq_true, if_false, if_pos]
          simp [hst, updateOverallResult_failed]
        · simp only [runAllLoop, hpf, Bool.false_eq_true, if_false, if_pos]
          intro hnone
          simp [hst] at hnone
        · simp only [runAllLoop, hpf, Bool.false_eq_true, if_false, if_pos]
          simp
      · have hs' : stop1 = false := Bool.eq_false_iff.mpr hs
        subst hs'
        obtain ⟨ih1, ih2, ih3⟩ := ih FAILED
        refine ⟨?_, ?_, ?_⟩
        · simp only [runAllLoop, hpf, Bool.false_eq_true, if_false]
          simp only [hst, updateOverallResult_failed]
          simp [hst, ih1]
        · simp only [runAllLoop, hpf, Bool.false_eq_true, if_false]
          intro hnone
          simp [hst] at hnone
        · simp only [runAllLoop, hpf, Bool.false_eq_true, if_false]
          simp only [hst, updateOverallResult_failed]
          simp [ih3]

/-- `List.any` over a mapped list (general version: the toolchain's
`List.any_map` is restricted to endomaps). -/
theorem anyMapEq {α β : Type} (f : α → β) (l : List α) (p : β → Bool) :
    (l.map f).any p = l.any fun a => p (f a) := by
  induction l with
  | nil => rfl
  | cons a l ih => simp [List.any_cons, ih]

/-- `List.all` over a mapped list (general version). -/
theorem allMapEq {α β : Type} (f : α → β) (l : List α) (p : β → Bool) :
    (l.map f).all p = l.all fun a => p (f a) := by
  induction l with
  | nil => rfl
  | cons a l ih => simp [List.all_cons, ih]

/-- Counterexample to claim C4 as stated: on a freshly constructed manager
with an empty registry, one full `runAllTests` invocation leaves
`overall_result_ = SKIPPED` while `getOverallResult()` recomputes
`NOT_RUN`, so the two derivation paths disagree. -/
theorem dual_path_empty_registry_counterexample :
    (runAllTests TestManager.init 0).manager.overall_result = SKIPPED
    ∧ getOverallResult (runAllTests TestManager.init 0).manager = NOT_RUN
    ∧ getOverallResult (runAllTests TestManager.init 0).manager
        ≠ (runAllTests TestManager.init 0).manager.overall_result := by
  refine ⟨by decide, by decide, by decide⟩

/-- Claim C4 (amended): after a single full `runAllTests` invocation on a
manager with a NONEMPTY registry (in any state), the recomputed
`getOverallResult()` equals the tracked `overall_result_` field; for an
empty registry the two differ (`SKIPPED` vs `NOT_RUN`, see the
counterexample). -/
theorem dual_path_agreement_nonempty (m : TestManager) (clk : Nat) (h : m.tests ≠ []) :
    getOverallResult (runAllTests m clk).manager
      = (runAllTests m clk).manager.overall_result := by
  unfold runAllTests
  rw [if_neg (by simp [h])]
  dsimp only
  obtain ⟨h1, h2, hlen⟩ := runAllLoop_overall_spec m.stop_on_first_failure clk m.tests PASSED
  have hne : (runAllLoop m.stop_on_first_failure clk m.tests PASSED).tests ≠ [] := by
    intro hnil
    rw [hnil] at hlen
    exact h (List.eq_nil_of_length_eq_zero hlen.symm)
  by_cases hfail :
      ((runAllLoop m.stop_on_first_failure clk m.tests PASSED).tests.any
        fun t => decide (t.status.result = FAILED)) = true
  · rw [h1, if_pos hfail]
    unfold getOverallResult
    rw [if_neg (by simp [hne])]
    have hf' : (((runAllLoop m.stop_on_first_failure clk m.tests PASSED).tests.map
        fun t => t.status.result).any fun r => decide (r = FAILED)) = true := by
      rw [anyMapEq]
      exact hfail
    simp only [hf', if_pos]
  · have hfail' := Bool.eq_false_iff.mpr hfail
    have hall := h2 hfail'
    rw [h1, hfail']
    unfold getOverallResult
    rw [if_neg (by simp [hne])]
    have hnf : (((runAllLoop m.stop_on_first_failure clk m.tests PASSED).tests.map
        fun t => t.status.result).any fun r => decide (r = FAILED)) = false := by
      rw [anyMapEq]
      exact hfail'
    have hnt : (((runAllLoop m.stop_on_first_failure clk m.tests PASSED).tests.map
        fun t => t.status.result).any fun r => decide (r = TIMEOUT)) = false := by
      rw [anyMapEq]
      apply List.any_eq_false.mpr
      intro t ht
      simp [hall t ht]
    have hap : (((runAllLoop m.stop_on_first_failure clk m.tests PASSED).tests.map
        fun t => t.status.result).all fun r => decide (r = PASSED)) = true := by
      rw [allMapEq]
      apply List.all_eq_true.mpr
      intro t ht
      simp [hall t ht]
    simp only [hnf, hnt, hap, Bool.false_eq_true, if_false, if_pos]

/-- Witness for C4 (amended) on a nonempty `[pass, fail, pass]` registry. -/
theorem dual_path_agreement_nonempty_witness :
    getOverallResult (runAllTests mgrStopDemo 0).manager
      = (runAllTests mgrStopDemo 0).manager.overall_result :=
  dual_path_agreement_nonempty mgrStopDemo 0 (by exact List.cons_ne_nil _ _)

/-- Unfolding one element of a status-result count. -/
theorem countResult_cons (r : TestResult) (t : TestCase) (l : List TestCase) :
    countResult r (t :: l) = countResult r l + (if t.status.result = r then 1 else 0) := by
  simp [countResult, List.countP_cons]

/-- Unfolding one element of the duration sum. -/
theorem sumDur_cons (t : TestCase) (l : List TestCase) :
    sumDur (t :: l) = t.status.duration_ms + sumDur l := by
  simp [sumDur]

/-- Moving an increment from the first of six summands to the end. -/
theorem add_bump6_1 (a b c d e f : Nat) :
    a + 1 + b + c + d + e + f = a + b + c + d + e + f + 1 := by
  rw [Nat.add_right_comm a 1 b, Nat.add_right_comm (a + b) 1 c,
    Nat.add_right_comm (a + b + c) 1 d, Nat.add_right_comm (a + b + c + d) 1 e,
    Nat.add_right_comm (a + b + c + d + e) 1 f]

/-- Moving an increment from the second of six summands to the end. -/
theorem add_bump6_2 (a b c d e f : Nat) :
    a + (b + 1) + c + d + e + f = a + b + c + d + e + f + 1 := by
  rw [← Nat.add_assoc a b 1, Nat.add_right_comm (a + b) 1 c,
    Nat.add_right_comm (a + b + c) 1 d, Nat.add_right_comm (a + b + c + d) 1 e,
    Nat.add_right_comm (a + b + c + d + e) 1 f]

/-- Moving an increment from the third of six summands to the end. -/
theorem add_bump6_3 (a b c d e f : Nat) :
    a + b + (c + 1) + d + e + f = a + b + c + d + e + f + 1 := by
  rw [← Nat.add_assoc (a + b) c 1, Nat.add_right_comm (a + b + c) 1 d,
    Nat.add_right_comm (a + b + c + d) 1 e, Nat.add_right_comm (a + b + c + d + e) 1 f]

/-- Moving an increment from the fourth of six summands to the end. -/
theorem add_bump6_4 (a b c d e f : Nat) :
    a + b + c + (d + 1) + e + f = a + b + c + d + e + f + 1 := by
  rw [← Nat.add_assoc (a + b + c) d 1, Nat.add_right_comm (a + b + c + d) 1 e,
    Nat.add_right_comm (a + b + c + d + e) 1 f]

/-- Moving an increment from the fifth of six summands to the end. -/
theorem add_bump6_5 (a b c d e f : Nat) :
    a + b + c + d + (e + 1) + f = a + b + c + d + e + f + 1 := by
  rw [← Nat.add_assoc (a + b + c + d) e 1, Nat.add_right_comm (a + b + c + d + e) 1 f]

/-- Moving an increment from the last of six summands to the end. -/
theorem add_bump6_6 (a b c d e f : Nat) :
    a + b + c + d + e + (f + 1) = a + b + c + d + e + f + 1 := by
  rw [← Nat.add_assoc (a + b + c + d + e) f 1]

/-- Each registered test contributes to exactly one of the six
status-result counts. -/
theorem countResult_partition (l : List TestCase) :
    countResult PASSED l + countResult FAILED l + countResult SKIPPED l
      + countResult TIMEOUT l + countResult NOT_RUN l + countResult RUNNING l
      = l.length := by
  induction l with
  | nil => rfl
  | cons t l ih =>
    rw [countResult_cons, countResult_cons, countResult_cons, countResult_cons,
      countResult_cons, countResult_cons, List.length_cons, ← ih]
    cases hres : t.status.result
    · rw [if_neg (by decide), if_neg (by decide), if_neg (by decide), if_neg (by decide),
        if_pos rfl, if_neg (by decide), Nat.add_zero, Nat.add_zero, Nat.add_zero,
        Nat.add_zero, Nat.add_zero]
      exact add_bump6_5 _ _ _ _ _ _
    · rw [if_neg (by decide), if_neg (by decide), if_neg (by decide), if_neg (by decide),
        if_neg (by decide), if_pos rfl, Nat.add_zero, Nat.add_zero, Nat.add_zero,
        Nat.add_zero, Nat.add_zero]
      exact add_bump6_6 _ _ _ _ _ _
    · rw [if_pos rfl, if_neg (by decide), if_neg (by decide), if_neg (by decide),
        if_neg (by decide), if_neg (by decide), Nat.add_zero, Nat.add_zero, Nat.add_zero,
        Nat.add_zero, Nat.add_zero]
      exact add_bump6_1 _ _ _ _ _ _
    · rw [if_neg (by decide), if_pos rfl, if_neg (by decide), if_neg (by decide),
        if_neg (by decide), if_neg (by decide), Nat.add_zero, Nat.add_zero, Nat.add_zero,
        Nat.add_zero, Nat.add_zero]
      exact add_bump6_2 _ _ _ _ _ _
    · rw [if_neg (by decide), if_neg (by decide), if_pos rfl, if_neg (by decide),
        if_neg (by decide), if_neg (by decide), Nat.add_zero, Nat.add_zero, Nat.add_zero,
        Nat.add_zero, Nat.add_zero]
      exact add_bump6_3 _ _ _ _ _ _
    · rw [if_neg (by decide), if_neg (by decide), if_neg (by decide), if_pos rfl,
        if_neg (by decide), if_neg (by decide), Nat.add_zero, Nat.add_zero, Nat.add_zero,
        Nat.add_zero, Nat.add_zero]
      exact add_bump6_4 _ _ _ _ _ _

/-- `statsStep` leaves `total_tests` unchanged. -/
theorem statsStep_total_tests (s : TestStatistics) (t : TestCase) :
    (statsStep s t).total_tests = s.total_tests := by
  unfold statsStep
  cases h : t.status.result <;> rfl

/-- `statsStep` leaves `success_rate` unchanged. -/
theorem statsStep_success_rate (s : TestStatistics) (t : TestCase) :
    (statsStep s t).success_rate = s.success_rate := by
  unfold statsStep
  cases h : t.status.result <;> rfl

/-- The `passed_tests` bucket after one `statsStep`. -/
theorem statsStep_passed_tests (s : TestStatistics) (t : TestCase) :
    (statsStep s t).passed_tests
      = (if t.status.result = PASSED then (s.passed_tests + 1) % u32 else s.passed_tests) := by
  unfold statsStep
  cases h : t.status.result <;> rfl

/-- The `failed_tests` bucket after one `statsStep`. -/
theorem statsStep_failed_tests (s : TestStatistics) (t : TestCase) :
    (statsStep s t).failed_tests
      = (if t.status.result = FAILED then (s.failed_tests + 1) % u32 else s.failed_tests) := by
  unfold statsStep
  cases h : t.status.result <;> rfl

/-- The `skipped_tests` bucket after one `statsStep`. -/
theorem statsStep_skipped_tests (s : TestStatistics) (t : TestCase) :
    (statsStep s t).skipped_tests
      = (if t.status.result = SKIPPED then (s.skipped_tests + 1) % u32 else s.skipped_tests) := by
  unfold statsStep
  cases h : t.status.result <;> rfl

/-- The `timeout_tests` bucket after one `statsStep`. -/
theorem statsStep_timeout_tests (s : TestStatistics) (t : TestCase) :
    (statsStep s t).timeout_tests
      = (if t.status.result = TIMEOUT then (s.timeout_tests + 1) % u32 else s.timeout_tests) := by
  unfold statsStep
  cases h : t.status.result <;> rfl

/-- `statsStep` always folds the test's duration into `total_duration_ms`. -/
theorem statsStep_total_duration (s : TestStatistics) (t : TestCase) :
    (statsStep s t).total_duration_ms
      = (s.total_duration_ms + t.status.duration_ms) % u32 := by
  unfold statsStep
  cases h : t.status.result <;> rfl

/-- `countResult` on the empty registry. -/
theorem countResult_nil (r : TestResult) : countResult r [] = 0 := rfl

/-- `sumDur` on the empty registry. -/
theorem sumDur_nil : sumDur [] = 0 := rfl

/-- `uint32_t` bucket increment followed by further additions, renormalized. -/
theorem u32_bump_add (x c : Nat) : ((x + 1) % u32 + c) % u32 = (x + (c + 1)) % u32 := by
  rw [Nat.mod_add_mod, Nat.add_assoc, Nat.add_comm 1 c]

/-- `uint32_t` duration accumulation, renormalized. -/
theorem u32_dur_add (x d c : Nat) : ((x + d) % u32 + c) % u32 = (x + (d + c)) % u32 := by
  rw [Nat.mod_add_mod, Nat.add_assoc]

/-- The `getStatistics` accumulation loop, characterized: starting from any
in-range accumulator, it leaves `total_tests` and `success_rate` alone and
adds (mod `2 ^ 32`) the per-status counts and the duration sum. -/
theorem foldl_statsStep_spec (l : List TestCase) :
    ∀ s : TestStatistics, s.passed_tests < u32 → s.failed_tests < u32 →
      s.skipped_tests < u32 → s.timeout_tests < u32 → s.total_duration_ms < u32 →
      l.foldl statsStep s =
        { total_tests := s.total_tests
          passed_tests := (s.passed_tests + countResult PASSED l) % u32
          failed_tests := (s.failed_tests + countResult FAILED l) % u32
          skipped_tests := (s.skipped_tests + countResult SKIPPED l) % u32
          timeout_tests := (s.timeout_tests + countResult TIMEOUT l) % u32
          total_duration_ms := (s.total_duration_ms + sumDur l) % u32
          success_rate := s.success_rate } := by
  induction l with
  | nil =>
    intro s h1 h2 h3 h4 h5
    simp only [List.foldl_nil, countResult_nil, sumDur_nil, Nat.add_zero,
      Nat.mod_eq_of_lt h1, Nat.mod_eq_of_lt h2, Nat.mod_eq_of_lt h3,
      Nat.mod_eq_of_lt h4, Nat.mod_eq_of_lt h5]
  | cons t l ih =>
    intro s h1 h2 h3 h4 h5
    have hu : 0 < u32 := by decide
    rw [List.foldl_cons]
    have hb1 : (statsStep s t).passed_tests < u32 := by
      rw [statsStep_passed_tests]
      split
      · exact Nat.mod_lt _ hu
      · exact h1
    have hb2 : (statsStep s t).failed_tests < u32 := by
      rw [statsStep_failed_tests]
      split
      · exact Nat.mod_lt _ hu
      · exact h2
    have hb3 : (statsStep s t).skipped_tests < u32 := by
      rw [statsStep_skipped_tests]
      split
      · exact Nat.mod_lt _ hu
      · exact h3
    have hb4 : (statsStep s t).timeout_tests < u32 := by
      rw [statsStep_timeout_tests]
      split
      · exact Nat.mod_lt _ hu
      · exact h4
    have hb5 : (statsStep s t).total_duration_ms < u32 := by
      rw [statsStep_total_duration]
      exact Nat.mod_lt _ hu
    rw [ih (statsStep s t) hb1 hb2 hb3 hb4 hb5]
    rw [countResult_cons PASSED, countResult_cons FAILED, countResult_cons SKIPPED,
      countResult_cons TIMEOUT, sumDur_cons]
    simp only [TestStatistics.mk.injEq]
    refine ⟨statsStep_total_tests s t, ?_, ?_, ?_, ?_, ?_, statsStep_success_rate s t⟩
    · rw [statsStep_passed_tests]
      by_cases hres : t.status.result = PASSED
      · rw [if_pos hres, if_pos hres, u32_bump_add]
      · rw [if_neg hres, if_neg hres, Nat.add_zero]
    · rw [statsStep_failed_tests]
      by_cases hres : t.status.result = FAILED
      · rw [if_pos hres, if_pos hres, u32_bump_add]
      · rw [if_neg hres, if_neg hres, Nat.add_zero]
    · rw [statsStep_skipped_tests]
      by_cases hres : t.status.result = SKIPPED
      · rw [if_pos hres, if_pos hres, u32_bump_add]
      · rw [if_neg hres, if_neg hres, Nat.add_zero]
    · rw [statsStep_timeout_tests]
      by_cases hres : t.status.result = TIMEOUT
      · rw [if_pos hres, if_pos hres, u32_bump_add]
      · rw [if_neg hres, if_neg hres, Nat.add_zero]
    · rw [statsStep_total_duration, u32_dur_add]

/-- Counterexample to claim C8 as stated: `total_duration_ms` is accumulated
in `uint32_t`, so on a registry whose per-test durations sum to `2 ^ 32` it
wraps to `0` instead of equalling the sum of the tests' `duration_ms`. -/
theorem statistics_duration_overflow_counterexample :
    (getStatistics mgrOverflowDemo).total_duration_ms = 0
    ∧ sumDur mgrOverflowDemo.tests = 4294967296
    ∧ (getStatistics mgrOverflowDemo).total_duration_ms ≠ sumDur mgrOverflowDemo.tests := by
  refine ⟨by decide, by decide, by decide⟩

/-- `getStatistics` in closed form, for a registry of fewer than `2 ^ 32`
tests: exact bucket counts, `uint32_t`-wrapped duration sum, and the
success-rate formula. -/
theorem getStatistics_closed (m : TestManager) (hlen : m.tests.length < u32) :
    getStatistics m =
      { total_tests := m.tests.length
        passed_tests := countResult PASSED m.tests
        failed_tests := countResult FAILED m.tests
        skipped_tests := countResult SKIPPED m.tests
        timeout_tests := countResult TIMEOUT m.tests
        total_duration_ms := sumDur m.tests % u32
        success_rate := (if m.tests.length = 0 then 0
           else ((countResult PASSED m.tests : ℚ) / (m.tests.length : ℚ)) * 100) } := by
  have hu : 0 < u32 := by decide
  have hlenmod : m.tests.length % u32 = m.tests.length := Nat.mod_eq_of_lt hlen
  have hcount : ∀ r : TestResult, countResult r m.tests % u32 = countResult r m.tests := by
    intro r
    exact Nat.mod_eq_of_lt (lt_of_le_of_lt (List.countP_le_length _) hlen)
  unfold getStatistics
  dsimp only
  rw [foldl_statsStep_spec m.tests ({ total_tests := m.tests.length % u32 } : TestStatistics)
    hu hu hu hu hu]
  dsimp only
  rw [hlenmod, Nat.zero_add, Nat.zero_add, Nat.zero_add, Nat.zero_add, Nat.zero_add,
    hcount PASSED, hcount FAILED, hcount SKIPPED, hcount TIMEOUT]
  by_cases hz : m.tests.length = 0
  · rw [if_neg (by rw [hz]; exact Nat.lt_irrefl 0), if_pos hz]
  · rw [if_pos (Nat.pos_of_ne_zero hz), if_neg hz]

/-- Claim C8 (amended): for every registry with fewer than `2 ^ 32`
registered tests, `getStatistics()` reports `total_tests` equal to the
number of registered tests; each bucket counts exactly the tests whose
status is the matching terminal result (`NOT_RUN`/`RUNNING` tests fall in no
bucket, witnessed by the six counts partitioning the registry);
`total_duration_ms` equals the sum of all tests' `duration_ms` reduced
modulo `2 ^ 32` (`uint32_t` accumulation; equal to the plain sum whenever
that sum is below `2 ^ 32`); and `success_rate` equals
`passed_tests / total_tests * 100` (as an exact rational), with `0` when
`total_tests` is `0`. -/
theorem getStatistics_spec (m : TestManager) (hlen : m.tests.length < u32) :
    (getStatistics m).total_tests = m.tests.length
    ∧ (getStatistics m).passed_tests = countResult PASSED m.tests
    ∧ (getStatistics m).failed_tests = countResult FAILED m.tests
    ∧ (getStatistics m).skipped_tests = countResult SKIPPED m.tests
    ∧ (getStatistics m).timeout_tests = countResult TIMEOUT m.tests
    ∧ countResult PASSED m.tests + countResult FAILED m.tests + countResult SKIPPED m.tests
        + countResult TIMEOUT m.tests + countResult NOT_RUN m.tests + countResult RUNNING m.tests
        = m.tests.length
    ∧ (getStatistics m).total_duration_ms = sumDur m.tests % u32
    ∧ (getStatistics m).success_rate
        = (if m.tests.length = 0 then 0
           else ((countResult PASSED m.tests : ℚ) / (m.tests.length : ℚ)) * 100) := by
  rw [getStatistics_closed m hlen]
  exact ⟨rfl, rfl, rfl, rfl, rfl, countResult_partition m.tests, rfl, rfl⟩

/-- Witness for C8 (amended) on a registry with statuses
`[PASSED, PASSED, FAILED]` and durations `10 + 20 + 5`. -/
theorem getStatistics_spec_witness :
    (getStatistics mgrStatsDemo).total_tests = 3
    ∧ (getStatistics mgrStatsDemo).passed_tests = 2
    ∧ (getStatistics mgrStatsDemo).failed_tests = 1
    ∧ (getStatistics mgrStatsDemo).total_duration_ms = 35
    ∧ (getStatistics mgrStatsDemo).success_rate = (2 : ℚ) / 3 * 100 := by
  have h := getStatistics_spec mgrStatsDemo (by decide)
  refine ⟨?_, ?_, ?_, ?_, ?_⟩
  · rw [h.1]
    decide
  · rw [h.2.1]
    decide
  · rw [h.2.2.1]
    decide
  · rw [h.2.2.2.2.2.2.1]
    decide
  · rw [h.2.2.2.2.2.2.2]
    have hc : countResult PASSED mgrStatsDemo.tests = 2 := by decide
    have hl : mgrStatsDemo.tests.length = 3 := by decide
    rw [hc, hl]
    norm_num
